import Mathlib

/-!
Verification of the natural-language specification of the mongo-go-driver
core against a shallow embedding of its source.

Part 1: the BSON document byte encoding (spec sections 3 and 6).
The encoder itself (bson.Document.MarshalBSON) is not part of the source
slice, only its tests are, so the encoder is modelled from the spec:
Document = int32 length || element* || 0x00, Element = type byte ||
cstring key || value, numeric primitives little-endian; the int32 length
covers the whole document including the prefix and the trailing NUL.
-/

/-- Bytes are modelled as natural numbers below 256; keys and string
payloads are byte lists (UTF-8 bytes, no embedded NUL). -/
abbrev Byte := Nat

/-- Modelled from the spec: the closed set of typed BSON variants, restricted
to the variants exercised by the claims (null, boolean, int32, int64,
string, subdocument).  The missing encoder source is `bson.Document.MarshalBSON`
and the value constructors `bson.EC` and `bson.VC`. -/
inductive BsonValue where
  | vnull
  | vboolean (b : Bool)
  | vint32 (n : Nat)
  | vint64 (n : Nat)
  | vstring (s : List Byte)
  | vdoc (elems : List (List Byte × BsonValue))

/-- Little-endian 4-byte encoding of a natural number (int32 on the wire). -/
def le32 (n : Nat) : List Byte :=
  [n % 256, n / 256 % 256, n / 256 ^ 2 % 256, n / 256 ^ 3 % 256]

/-- Little-endian 8-byte encoding of a natural number (int64 on the wire). -/
def le64 (n : Nat) : List Byte :=
  [n % 256, n / 256 % 256, n / 256 ^ 2 % 256, n / 256 ^ 3 % 256,
   n / 256 ^ 4 % 256, n / 256 ^ 5 % 256, n / 256 ^ 6 % 256, n / 256 ^ 7 % 256]

/-- Read back a little-endian 4-byte int32. -/
def readLE32 : List Byte → Nat
  | a :: b :: c :: d :: _ => a + 256 * b + 256 ^ 2 * c + 256 ^ 3 * d
  | _ => 0

/-- The BSON type byte of each value variant (spec section 3). -/
def typeByte : BsonValue → Byte
  | .vnull => 0x0A
  | .vboolean _ => 0x08
  | .vint32 _ => 0x10
  | .vint64 _ => 0x12
  | .vstring _ => 0x02
  | .vdoc _ => 0x03

mutual

/-- Modelled from the spec: the value part of an element's encoding. -/
def encodeValue : BsonValue → List Byte
  | .vnull => []
  | .vboolean b => [if b then 1 else 0]
  | .vint32 n => le32 n
  | .vint64 n => le64 n
  | .vstring s => le32 (s.length + 1) ++ s ++ [0]
  | .vdoc es => le32 (4 + (encodeElems es).length + 1) ++ encodeElems es ++ [0]

/-- Modelled from the spec: the element sequence of a document body,
each element being type byte, NUL-terminated key, then the value. -/
def encodeElems : List (List Byte × BsonValue) → List Byte
  | [] => []
  | (k, v) :: rest => typeByte v :: (k ++ [0] ++ encodeValue v ++ encodeElems rest)

end

/-- Modelled from the spec: the full document encoding, a little-endian
int32 byte length (including the 4-byte prefix and the trailing NUL)
followed by the elements and a NUL byte. -/
def encodeDoc (es : List (List Byte × BsonValue)) : List Byte :=
  le32 (4 + (encodeElems es).length + 1) ++ encodeElems es ++ [0]

theorem le32_length (n : Nat) : (le32 n).length = 4 := rfl

theorem readLE32_le32 (n : Nat) : readLE32 (le32 n) = n % 2 ^ 32 := by
  simp only [le32, readLE32]
  omega

theorem readLE32_le32_append (n : Nat) (rest : List Byte) :
    readLE32 (le32 n ++ rest) = n % 2 ^ 32 := by
  simp only [le32, readLE32, List.cons_append]
  omega

theorem encodeDoc_length (es : List (List Byte × BsonValue)) :
    (encodeDoc es).length = 4 + (encodeElems es).length + 1 := by
  simp [encodeDoc, le32]
  omega

/-- The length prefix of an encoded document reads back as the total byte
length of the encoding, modulo the int32 range. -/
theorem encodeDoc_readLE32 (es : List (List Byte × BsonValue)) :
    readLE32 (encodeDoc es) = (encodeDoc es).length % 2 ^ 32 := by
  rw [encodeDoc_length, encodeDoc, List.append_assoc, readLE32_le32_append]

theorem encodeDoc_take_four (es : List (List Byte × BsonValue)) :
    (encodeDoc es).take 4 = le32 ((encodeDoc es).length) := by
  rw [encodeDoc_length, encodeDoc, List.append_assoc]
  rw [List.take_append_of_le_length (by rw [le32_length])]
  simp [le32]

theorem encodeDoc_getLast (es : List (List Byte × BsonValue)) :
    (encodeDoc es).getLast? = some 0 := by
  rw [encodeDoc]
  exact List.getLast?_concat _

/-- C1: every encoded document begins with a 4-byte little-endian int32
equal to the total byte length of the encoding (prefix and trailing NUL
included) and ends with a NUL byte; the empty document encodes to exactly
the 5 bytes 05 00 00 00 00, and the document with the single element
"foo" : null encodes to exactly the 10 bytes
0A 00 00 00 0A 66 6F 6F 00 00. -/
theorem claim_C1 :
    (∀ es : List (List Byte × BsonValue),
      (encodeDoc es).length < 2 ^ 32 →
        readLE32 ((encodeDoc es).take 4) = (encodeDoc es).length ∧
        (encodeDoc es).getLast? = some 0) ∧
    encodeDoc [] = [0x05, 0x00, 0x00, 0x00, 0x00] ∧
    encodeDoc [([0x66, 0x6F, 0x6F], .vnull)] =
      [0x0A, 0x00, 0x00, 0x00, 0x0A, 0x66, 0x6F, 0x6F, 0x00, 0x00] := by
  refine ⟨fun es h => ?_, by decide, by decide⟩
  constructor
  · rw [encodeDoc_take_four, readLE32_le32, Nat.mod_eq_of_lt h]
  · exact encodeDoc_getLast es

/-- Witness for claim C1: the universal part evaluated at the empty
document, whose encoding has length 5 < 2^32. -/
theorem claim_C1_witness :
    readLE32 ((encodeDoc []).take 4) = (encodeDoc []).length ∧
    (encodeDoc []).getLast? = some 0 :=
  claim_C1.1 [] (by decide)

/-!
Part 2: the cluster clock (core/session/cluster_clock.go).
`ClusterClock.AdvanceClusterTime` stores `MaxClusterTime(current, new)`;
the comparator `MaxClusterTime` is not part of the source slice and is
modelled from the spec: "take the document with the greater
clusterTime.timestamp", a BSON timestamp being two unsigned 32-bit words
compared as (seconds, increment).
-/

/-- A cluster-time document: the clusterTime.timestamp words plus an
opaque remainder so that distinct documents with equal timestamps can be
told apart. -/
structure ClusterTimeDoc where
  t : Nat
  i : Nat
  rest : Nat
deriving Repr, DecidableEq

/-- The timestamp of a cluster-time document collapsed to one natural
number: seconds word weighted by 2^32 plus the increment word. -/
def tsKey (d : ClusterTimeDoc) : Nat := d.t * 2 ^ 32 + d.i

/-- Modelled from the spec: MaxClusterTime returns the document with the
greater clusterTime.timestamp (the current one on ties).  The missing
source is core/session/session.go MaxClusterTime. -/
def MaxClusterTime (ct1 ct2 : ClusterTimeDoc) : ClusterTimeDoc :=
  if tsKey ct1 < tsKey ct2 then ct2 else ct1

/-- ClusterClock.AdvanceClusterTime: replace the stored cluster time with
the maximum of itself and the incoming document. -/
def AdvanceClusterTime (stored clusterTime : ClusterTimeDoc) : ClusterTimeDoc :=
  MaxClusterTime stored clusterTime

/-- A sequence of AdvanceClusterTime calls starting from an initial
stored value. -/
def advanceSeq (init : ClusterTimeDoc) (ds : List ClusterTimeDoc) : ClusterTimeDoc :=
  ds.foldl AdvanceClusterTime init

theorem tsKey_advance (c d : ClusterTimeDoc) :
    tsKey (AdvanceClusterTime c d) = max (tsKey c) (tsKey d) := by
  unfold AdvanceClusterTime MaxClusterTime
  split <;> omega

theorem advance_eq_or (c d : ClusterTimeDoc) :
    AdvanceClusterTime c d = c ∨ AdvanceClusterTime c d = d := by
  unfold AdvanceClusterTime MaxClusterTime
  split
  · exact Or.inr rfl
  · exact Or.inl rfl

theorem advanceSeq_tsKey (ds : List ClusterTimeDoc) (init : ClusterTimeDoc) :
    tsKey (advanceSeq init ds) = (ds.map tsKey).foldl max (tsKey init) := by
  induction ds generalizing init with
  | nil => rfl
  | cons d ds ih =>
      simp only [advanceSeq, List.foldl_cons, List.map_cons]
      rw [← advanceSeq, ih, tsKey_advance]

theorem advanceSeq_mem (ds : List ClusterTimeDoc) (init : ClusterTimeDoc) :
    advanceSeq init ds ∈ init :: ds := by
  induction ds generalizing init with
  | nil => simp [advanceSeq]
  | cons d ds ih =>
      have h := ih (AdvanceClusterTime init d)
      simp only [advanceSeq, List.foldl_cons] at *
      rcases List.mem_cons.mp h with h1 | h1
      · rcases advance_eq_or init d with h2 | h2 <;> rw [h1, h2] <;> simp
      · simp [h1]

/-- C2: AdvanceClusterTime is monotone: after any sequence of calls the
stored cluster time is a document from the sequence (or the initial
value) whose clusterTime.timestamp is the greatest of all of them; in
particular advancing with Timestamp(5,0), Timestamp(3,0), Timestamp(7,0)
leaves the document carrying Timestamp(7,0). -/
theorem claim_C2 :
    (∀ (init : ClusterTimeDoc) (ds : List ClusterTimeDoc),
      tsKey (advanceSeq init ds) = (ds.map tsKey).foldl max (tsKey init) ∧
      advanceSeq init ds ∈ init :: ds) ∧
    advanceSeq ⟨0, 0, 0⟩ [⟨5, 0, 1⟩, ⟨3, 0, 2⟩, ⟨7, 0, 3⟩] = ⟨7, 0, 3⟩ :=
  ⟨fun init ds => ⟨advanceSeq_tsKey ds init, advanceSeq_mem ds init⟩, by decide⟩

/-!
Part 3: the find dispatcher (core/dispatch/find.go, func Find).
The option-merging portion of Find is embedded as a pure function from
the merged FindOptions, the selected server description's maximum wire
version and the incoming command to the resulting command options and
cursor (getMore) options, or the error ErrCollation.  Options whose Go
value passes through interfaceToElement (hint, max, min, projection,
sort) are carried as the already-converted element value.  Durations are
nanoseconds as in Go's time.Duration, so division by 1000000 realises
the source's division by time.Millisecond.
-/

/-- A BSON value as used in command option elements. -/
inductive CmdVal where
  | boolean (b : Bool)
  | int32 (n : Int)
  | int64 (n : Int)
  | str (s : String)
  | doc (d : Nat)
deriving Repr, DecidableEq

/-- One command option element: key and value (bson.Elem). -/
abbrev CmdElem := String × CmdVal

/-- options.CursorType. -/
inductive CursorType where
  | nonTailable
  | tailable
  | tailableAwait
deriving Repr, DecidableEq

/-- The merged find options (options.FindOptions after MergeFindOptions),
fields in the order the source inspects them. -/
structure FindOptions where
  allowPartialResults : Option Bool := none
  batchSize : Option Int := none
  collation : Option Nat := none
  comment : Option String := none
  cursorType : Option CursorType := none
  hint : Option CmdVal := none
  limit : Option Int := none
  max : Option CmdVal := none
  maxAwaitTime : Option Nat := none
  maxTime : Option Nat := none
  min : Option CmdVal := none
  noCursorTimeout : Option Bool := none
  oplogReplay : Option Bool := none
  projection : Option CmdVal := none
  returnKey : Option Bool := none
  showRecordID : Option Bool := none
  skip : Option Int := none
  snapshot : Option Bool := none
  sort : Option CmdVal := none
deriving Repr, DecidableEq

/-- The command being built: its options and its cursor (getMore) options
(command.Find fields Opts and CursorOpts). -/
structure FindCmd where
  opts : List CmdElem
  cursorOpts : List CmdElem
deriving Repr, DecidableEq

/-- Errors the embedded dispatcher can return. -/
inductive DispatchError where
  | errCollation
deriving Repr, DecidableEq

/-- Elements appended to cmd.Opts for AllowPartialResults. -/
def allowPartialResultsElems (fo : FindOptions) : List CmdElem :=
  match fo.allowPartialResults with
  | some b => [("allowPartialResults", .boolean b)]
  | none => []

/-- Elements appended to cmd.Opts for BatchSize: the batchSize element,
and singleBatch when a limit is set, the batch size is nonzero and the
limit fits within it. -/
def batchSizeOptsElems (fo : FindOptions) : List CmdElem :=
  match fo.batchSize with
  | some n =>
      ("batchSize", .int32 n) ::
        (match fo.limit with
         | some l => if n ≠ 0 ∧ l ≤ n then [("singleBatch", .boolean true)] else []
         | none => [])
  | none => []

/-- Element appended to cmd.CursorOpts for BatchSize. -/
def batchSizeCursorElems (fo : FindOptions) : List CmdElem :=
  match fo.batchSize with
  | some n => [("batchSize", .int32 n)]
  | none => []

/-- Element appended for Comment. -/
def commentElems (fo : FindOptions) : List CmdElem :=
  match fo.comment with
  | some c => [("comment", .str c)]
  | none => []

/-- Elements appended for CursorType: tailable for Tailable, tailable and
awaitData for TailableAwait, nothing otherwise. -/
def cursorTypeElems (fo : FindOptions) : List CmdElem :=
  match fo.cursorType with
  | some .tailable => [("tailable", .boolean true)]
  | some .tailableAwait => [("tailable", .boolean true), ("awaitData", .boolean true)]
  | some .nonTailable => []
  | none => []

/-- Element appended for Hint. -/
def hintElems (fo : FindOptions) : List CmdElem :=
  match fo.hint with
  | some v => [("hint", v)]
  | none => []

/-- Element appended for Limit. -/
def limitElems (fo : FindOptions) : List CmdElem :=
  match fo.limit with
  | some l => [("limit", .int64 l)]
  | none => []

/-- Element appended for Max. -/
def maxElems (fo : FindOptions) : List CmdElem :=
  match fo.max with
  | some v => [("max", v)]
  | none => []

/-- Element appended to cmd.CursorOpts only for MaxAwaitTime: specified
as maxTimeMS on the getMore command and not given in the initial find
command. -/
def maxAwaitTimeCursorElems (fo : FindOptions) : List CmdElem :=
  match fo.maxAwaitTime with
  | some d => [("maxTimeMS", .int64 (d / 1000000))]
  | none => []

/-- Element appended to cmd.Opts for MaxTime. -/
def maxTimeElems (fo : FindOptions) : List CmdElem :=
  match fo.maxTime with
  | some d => [("maxTimeMS", .int64 (d / 1000000))]
  | none => []

/-- Element appended for Min. -/
def minElems (fo : FindOptions) : List CmdElem :=
  match fo.min with
  | some v => [("min", v)]
  | none => []

/-- Element appended for NoCursorTimeout. -/
def noCursorTimeoutElems (fo : FindOptions) : List CmdElem :=
  match fo.noCursorTimeout with
  | some b => [("noCursorTimeout", .boolean b)]
  | none => []

/-- Element appended for OplogReplay. -/
def oplogReplayElems (fo : FindOptions) : List CmdElem :=
  match fo.oplogReplay with
  | some b => [("oplogReplay", .boolean b)]
  | none => []

/-- Element appended for Projection. -/
def projectionElems (fo : FindOptions) : List CmdElem :=
  match fo.projection with
  | some v => [("projection", v)]
  | none => []

/-- Element appended for ReturnKey. -/
def returnKeyElems (fo : FindOptions) : List CmdElem :=
  match fo.returnKey with
  | some b => [("returnKey", .boolean b)]
  | none => []

/-- Element appended for ShowRecordID. -/
def showRecordIDElems (fo : FindOptions) : List CmdElem :=
  match fo.showRecordID with
  | some b => [("showRecordId", .boolean b)]
  | none => []

/-- Element appended for Skip. -/
def skipElems (fo : FindOptions) : List CmdElem :=
  match fo.skip with
  | some n => [("skip", .int64 n)]
  | none => []

/-- Element appended for Snapshot. -/
def snapshotElems (fo : FindOptions) : List CmdElem :=
  match fo.snapshot with
  | some b => [("snapshot", .boolean b)]
  | none => []

/-- Element appended for Sort. -/
def sortElems (fo : FindOptions) : List CmdElem :=
  match fo.sort with
  | some v => [("sort", v)]
  | none => []

/-- The cmd.Opts elements appended before the collation check, in source
order. -/
def preCollationOptsElems (fo : FindOptions) : List CmdElem :=
  allowPartialResultsElems fo ++ batchSizeOptsElems fo

/-- The cmd.Opts elements appended after the collation check, in source
order: comment, cursorType, hint, limit, max, maxTime, min,
noCursorTimeout, oplogReplay, projection, returnKey, showRecordId, skip,
snapshot, sort.  MaxAwaitTime appends nothing here. -/
def postCollationOptsElems (fo : FindOptions) : List CmdElem :=
  commentElems fo ++ cursorTypeElems fo ++ hintElems fo ++ limitElems fo ++ maxElems fo ++
    maxTimeElems fo ++ minElems fo ++ noCursorTimeoutElems fo ++ oplogReplayElems fo ++
    projectionElems fo ++ returnKeyElems fo ++ showRecordIDElems fo ++ skipElems fo ++
    snapshotElems fo ++ sortElems fo

/-- The cmd.CursorOpts elements appended, in source order: batchSize
(step two) then the maxTimeMS derived from MaxAwaitTime. -/
def findCursorOptsElems (fo : FindOptions) : List CmdElem :=
  batchSizeCursorElems fo ++ maxAwaitTimeCursorElems fo

/-- The option-merging portion of dispatch.Find: appends each set option
to cmd.Opts or cmd.CursorOpts in source order, failing with ErrCollation
when a collation is given against a server with maximum wire version
below 5. -/
def Find (maxWireVersion : Int) (fo : FindOptions) (cmd : FindCmd) :
    Except DispatchError FindCmd :=
  match fo.collation with
  | some c =>
      if maxWireVersion < 5 then .error .errCollation
      else
        .ok { opts := cmd.opts ++ preCollationOptsElems fo ++ [("collation", .doc c)] ++
                postCollationOptsElems fo,
              cursorOpts := cmd.cursorOpts ++ findCursorOptsElems fo }
  | none =>
      .ok { opts := cmd.opts ++ preCollationOptsElems fo ++ postCollationOptsElems fo,
            cursorOpts := cmd.cursorOpts ++ findCursorOptsElems fo }

/-- No element of the list carries the key k. -/
def noKey (k : String) (l : List CmdElem) : Prop := ∀ e ∈ l, e.1 ≠ k

theorem noKey_append {k : String} {l1 l2 : List CmdElem}
    (h1 : noKey k l1) (h2 : noKey k l2) : noKey k (l1 ++ l2) := by
  intro e he
  rcases List.mem_append.mp he with h | h
  · exact h1 e h
  · exact h2 e h

theorem noKey_single {k a : String} {v : CmdVal} (h : a ≠ k) : noKey k [(a, v)] := by
  intro e he
  simp only [List.mem_singleton] at he
  simp [he, h]

theorem noKey_allowPartialResults (fo : FindOptions) {k : String}
    (h : "allowPartialResults" ≠ k) : noKey k (allowPartialResultsElems fo) := by
  unfold allowPartialResultsElems
  cases fo.allowPartialResults
  · intro e he; cases he
  · exact noKey_single h

theorem noKey_batchSizeOpts (fo : FindOptions) {k : String}
    (h1 : "batchSize" ≠ k) (h2 : "singleBatch" ≠ k) : noKey k (batchSizeOptsElems fo) := by
  intro e he
  unfold batchSizeOptsElems at he
  cases hbs : fo.batchSize with
  | none => rw [hbs] at he; cases he
  | some n =>
      rw [hbs] at he
      rcases List.mem_cons.mp he with h | h
      · simp [h, h1]
      · cases hl : fo.limit with
        | none => rw [hl] at h; simp at h
        | some l =>
            rw [hl] at h
            simp at h
            simp [h.2, h2]

theorem noKey_batchSizeCursor (fo : FindOptions) {k : String}
    (h : "batchSize" ≠ k) : noKey k (batchSizeCursorElems fo) := by
  unfold batchSizeCursorElems
  cases fo.batchSize
  · intro e he; cases he
  · exact noKey_single h

theorem noKey_comment (fo : FindOptions) {k : String}
    (h : "comment" ≠ k) : noKey k (commentElems fo) := by
  unfold commentElems
  cases fo.comment
  · intro e he; cases he
  · exact noKey_single h

theorem noKey_cursorType (fo : FindOptions) {k : String}
    (h1 : "tailable" ≠ k) (h2 : "awaitData" ≠ k) : noKey k (cursorTypeElems fo) := by
  unfold cursorTypeElems
  intro e he
  match hct : fo.cursorType with
  | none => rw [hct] at he; cases he
  | some .nonTailable => rw [hct] at he; cases he
  | some .tailable => rw [hct] at he; simp only [List.mem_singleton] at he; simp [he, h1]
  | some .tailableAwait =>
      rw [hct] at he
      rcases List.mem_cons.mp he with h | h
      · simp [h, h1]
      · simp only [List.mem_singleton] at h; simp [h, h2]

theorem noKey_hint (fo : FindOptions) {k : String}
    (h : "hint" ≠ k) : noKey k (hintElems fo) := by
  unfold hintElems
  cases fo.hint
  · intro e he; cases he
  · exact noKey_single h

theorem noKey_limit (fo : FindOptions) {k : String}
    (h : "limit" ≠ k) : noKey k (limitElems fo) := by
  unfold limitElems
  cases fo.limit
  · intro e he; cases he
  · exact noKey_single h

theorem noKey_max (fo : FindOptions) {k : String}
    (h : "max" ≠ k) : noKey k (maxElems fo) := by
  unfold maxElems
  cases fo.max
  · intro e he; cases he
  · exact noKey_single h

theorem noKey_maxAwaitTimeCursor (fo : FindOptions) {k : String}
    (h : "maxTimeMS" ≠ k) : noKey k (maxAwaitTimeCursorElems fo) := by
  unfold maxAwaitTimeCursorElems
  cases fo.maxAwaitTime
  · intro e he; cases he
  · exact noKey_single h

theorem noKey_maxTime (fo : FindOptions) {k : String}
    (h : "maxTimeMS" ≠ k) : noKey k (maxTimeElems fo) := by
  unfold maxTimeElems
  cases fo.maxTime
  · intro e he; cases he
  · exact noKey_single h

theorem noKey_maxTime_of_none (fo : FindOptions) (h : fo.maxTime = none) (k : String) :
    noKey k (maxTimeElems fo) := by
  unfold maxTimeElems
  rw [h]
  intro e he; cases he

theorem noKey_min (fo : FindOptions) {k : String}
    (h : "min" ≠ k) : noKey k (minElems fo) := by
  unfold minElems
  cases fo.min
  · intro e he; cases he
  · exact noKey_single h

theorem noKey_noCursorTimeout (fo : FindOptions) {k : String}
    (h : "noCursorTimeout" ≠ k) : noKey k (noCursorTimeoutElems fo) := by
  unfold noCursorTimeoutElems
  cases fo.noCursorTimeout
  · intro e he; cases he
  · exact noKey_single h

theorem noKey_oplogReplay (fo : FindOptions) {k : String}
    (h : "oplogReplay" ≠ k) : noKey k (oplogReplayElems fo) := by
  unfold oplogReplayElems
  cases fo.oplogReplay
  · intro e he; cases he
  · exact noKey_single h

theorem noKey_projection (fo : FindOptions) {k : String}
    (h : "projection" ≠ k) : noKey k (projectionElems fo) := by
  unfold projectionElems
  cases fo.projection
  · intro e he; cases he
  · exact noKey_single h

theorem noKey_returnKey (fo : FindOptions) {k : String}
    (h : "returnKey" ≠ k) : noKey k (returnKeyElems fo) := by
  unfold returnKeyElems
  cases fo.returnKey
  · intro e he; cases he
  · exact noKey_single h

theorem noKey_showRecordID (fo : FindOptions) {k : String}
    (h : "showRecordId" ≠ k) : noKey k (showRecordIDElems fo) := by
  unfold showRecordIDElems
  cases fo.showRecordID
  · intro e he; cases he
  · exact noKey_single h

theorem noKey_skip (fo : FindOptions) {k : String}
    (h : "skip" ≠ k) : noKey k (skipElems fo) := by
  unfold skipElems
  cases fo.skip
  · intro e he; cases he
  · exact noKey_single h

theorem noKey_snapshot (fo : FindOptions) {k : String}
    (h : "snapshot" ≠ k) : noKey k (snapshotElems fo) := by
  unfold snapshotElems
  cases fo.snapshot
  · intro e he; cases he
  · exact noKey_single h

theorem noKey_sort (fo : FindOptions) {k : String}
    (h : "sort" ≠ k) : noKey k (sortElems fo) := by
  unfold sortElems
  cases fo.sort
  · intro e he; cases he
  · exact noKey_single h

/-- None of the option elements appended to cmd.Opts before the collation
check carries the key k, provided k is none of their fixed keys. -/
theorem noKey_preCollation (fo : FindOptions) {k : String}
    (h1 : "allowPartialResults" ≠ k) (h2 : "batchSize" ≠ k) (h3 : "singleBatch" ≠ k) :
    noKey k (preCollationOptsElems fo) :=
  noKey_append (noKey_allowPartialResults fo h1) (noKey_batchSizeOpts fo h2 h3)

/-- None of the option elements appended to cmd.Opts after the collation
check carries the key k, provided k is none of their fixed keys. -/
theorem noKey_postCollation (fo : FindOptions) {k : String}
    (h1 : "comment" ≠ k) (h2 : "tailable" ≠ k) (h3 : "awaitData" ≠ k)
    (h4 : "hint" ≠ k) (h5 : "limit" ≠ k) (h6 : "max" ≠ k) (h7 : "maxTimeMS" ≠ k)
    (h8 : "min" ≠ k) (h9 : "noCursorTimeout" ≠ k) (h10 : "oplogReplay" ≠ k)
    (h11 : "projection" ≠ k) (h12 : "returnKey" ≠ k) (h13 : "showRecordId" ≠ k)
    (h14 : "skip" ≠ k) (h15 : "snapshot" ≠ k) (h16 : "sort" ≠ k) :
    noKey k (postCollationOptsElems fo) := by
  unfold postCollationOptsElems
  exact noKey_append (noKey_append (noKey_append (noKey_append (noKey_append (noKey_append
    (noKey_append (noKey_append (noKey_append (noKey_append (noKey_append (noKey_append
    (noKey_append (noKey_append (noKey_comment fo h1) (noKey_cursorType fo h2 h3))
    (noKey_hint fo h4)) (noKey_limit fo h5)) (noKey_max fo h6)) (noKey_maxTime fo h7))
    (noKey_min fo h8)) (noKey_noCursorTimeout fo h9)) (noKey_oplogReplay fo h10))
    (noKey_projection fo h11)) (noKey_returnKey fo h12)) (noKey_showRecordID fo h13))
    (noKey_skip fo h14)) (noKey_snapshot fo h15)) (noKey_sort fo h16)

/-- Like noKey_postCollation for the key maxTimeMS itself, available when
MaxTime is unset. -/
theorem noKey_postCollation_maxTimeMS (fo : FindOptions) (hmt : fo.maxTime = none) :
    noKey "maxTimeMS" (postCollationOptsElems fo) := by
  unfold postCollationOptsElems
  exact noKey_append (noKey_append (noKey_append (noKey_append (noKey_append (noKey_append
    (noKey_append (noKey_append (noKey_append (noKey_append (noKey_append (noKey_append
    (noKey_append (noKey_append (noKey_comment fo (by decide))
    (noKey_cursorType fo (by decide) (by decide))) (noKey_hint fo (by decide)))
    (noKey_limit fo (by decide))) (noKey_max fo (by decide)))
    (noKey_maxTime_of_none fo hmt _)) (noKey_min fo (by decide)))
    (noKey_noCursorTimeout fo (by decide))) (noKey_oplogReplay fo (by decide)))
    (noKey_projection fo (by decide))) (noKey_returnKey fo (by decide)))
    (noKey_showRecordID fo (by decide))) (noKey_skip fo (by decide)))
    (noKey_snapshot fo (by decide))) (noKey_sort fo (by decide))

theorem mem_cursorTypeElems_tailableAwait (fo : FindOptions)
    (h : fo.cursorType = some .tailableAwait) :
    ("tailable", CmdVal.boolean true) ∈ cursorTypeElems fo ∧
    ("awaitData", CmdVal.boolean true) ∈ cursorTypeElems fo := by
  simp [cursorTypeElems, h]

theorem mem_postCollation_of_cursorType {fo : FindOptions} {e : CmdElem}
    (h : e ∈ cursorTypeElems fo) : e ∈ postCollationOptsElems fo := by
  unfold postCollationOptsElems
  simp only [List.mem_append]
  tauto

theorem mem_findCursorOptsElems (fo : FindOptions) (d : Nat)
    (h : fo.maxAwaitTime = some d) :
    ("maxTimeMS", CmdVal.int64 (d / 1000000)) ∈ findCursorOptsElems fo := by
  simp [findCursorOptsElems, maxAwaitTimeCursorElems, h]

/-- C3: when a find is built with MaxAwaitTime, the resulting maxTimeMS
element goes only to the cursor (getMore) options; the initial find
options never receive a maxAwaitTimeMS element (nor a maxTimeMS element
unless MaxTime itself was set), and a tailable-await find carries
tailable:true and awaitData:true in its initial options. -/
theorem claim_C3 (maxWire : Int) (fo : FindOptions) (cmd cmd' : FindCmd) (d : Nat)
    (hmat : fo.maxAwaitTime = some d) (hok : Find maxWire fo cmd = .ok cmd') :
    ("maxTimeMS", CmdVal.int64 (d / 1000000)) ∈ cmd'.cursorOpts ∧
    (noKey "maxAwaitTimeMS" cmd.opts → noKey "maxAwaitTimeMS" cmd'.opts) ∧
    (fo.maxTime = none → noKey "maxTimeMS" cmd.opts → noKey "maxTimeMS" cmd'.opts) ∧
    (fo.cursorType = some .tailableAwait →
      ("tailable", CmdVal.boolean true) ∈ cmd'.opts ∧
      ("awaitData", CmdVal.boolean true) ∈ cmd'.opts) := by
  cases hcol : fo.collation with
  | some c =>
      simp only [Find, hcol] at hok
      by_cases hw : maxWire < 5
      · rw [if_pos hw] at hok
        exact Except.noConfusion hok
      · rw [if_neg hw] at hok
        have hcmd := (Except.ok.inj hok).symm
        subst hcmd
        refine ⟨?_, ?_, ?_, ?_⟩
        · exact List.mem_append_right _ (mem_findCursorOptsElems fo d hmat)
        · intro h0
          exact noKey_append (noKey_append (noKey_append h0
            (noKey_preCollation fo (by decide) (by decide) (by decide)))
            (noKey_single (by decide)))
            (noKey_postCollation fo (by decide) (by decide) (by decide) (by decide)
              (by decide) (by decide) (by decide) (by decide) (by decide) (by decide)
              (by decide) (by decide) (by decide) (by decide) (by decide) (by decide))
        · intro hmt h0
          exact noKey_append (noKey_append (noKey_append h0
            (noKey_preCollation fo (by decide) (by decide) (by decide)))
            (noKey_single (by decide)))
            (noKey_postCollation_maxTimeMS fo hmt)
        · intro hct
          have hmem := mem_cursorTypeElems_tailableAwait fo hct
          exact ⟨List.mem_append_right _ (mem_postCollation_of_cursorType hmem.1),
            List.mem_append_right _ (mem_postCollation_of_cursorType hmem.2)⟩
  | none =>
      simp only [Find, hcol] at hok
      have hcmd := (Except.ok.inj hok).symm
      subst hcmd
      refine ⟨?_, ?_, ?_, ?_⟩
      · exact List.mem_append_right _ (mem_findCursorOptsElems fo d hmat)
      · intro h0
        exact noKey_append (noKey_append h0
          (noKey_preCollation fo (by decide) (by decide) (by decide)))
          (noKey_postCollation fo (by decide) (by decide) (by decide) (by decide)
            (by decide) (by decide) (by decide) (by decide) (by decide) (by decide)
            (by decide) (by decide) (by decide) (by decide) (by decide) (by decide))
      · intro hmt h0
        exact noKey_append (noKey_append h0
          (noKey_preCollation fo (by decide) (by decide) (by decide)))
          (noKey_postCollation_maxTimeMS fo hmt)
      · intro hct
        have hmem := mem_cursorTypeElems_tailableAwait fo hct
        exact ⟨List.mem_append_right _ (mem_postCollation_of_cursorType hmem.1),
          List.mem_append_right _ (mem_postCollation_of_cursorType hmem.2)⟩

/-- Witness for claim C3: a tailable-await find with MaxAwaitTime 250ms
(250000000ns) against wire version 6 puts maxTimeMS 250 in the cursor
options while its initial options are tailable and awaitData only. -/
theorem claim_C3_witness :
    ("maxTimeMS", CmdVal.int64 ((250000000 : Nat) / 1000000)) ∈
      (FindCmd.mk [("tailable", CmdVal.boolean true), ("awaitData", CmdVal.boolean true)]
        [("maxTimeMS", CmdVal.int64 250)]).cursorOpts :=
  (claim_C3 6 { maxAwaitTime := some 250000000, cursorType := some .tailableAwait }
    ⟨[], []⟩
    (FindCmd.mk [("tailable", CmdVal.boolean true), ("awaitData", CmdVal.boolean true)]
      [("maxTimeMS", CmdVal.int64 250)])
    250000000 rfl rfl).1

/-- C9: a find specifying a Collation against a server whose maximum wire
version is below 5 returns ErrCollation: no command is produced, so no
collation element (or any other element) is ever appended or sent. -/
theorem claim_C9 (maxWire : Int) (fo : FindOptions) (cmd : FindCmd) (c : Nat)
    (hcol : fo.collation = some c) (hw : maxWire < 5) :
    Find maxWire fo cmd = .error .errCollation := by
  simp only [Find, hcol]
  rw [if_pos hw]

/-- Witness for claim C9: a collation against wire version 4 fails with
ErrCollation. -/
theorem claim_C9_witness :
    Find 4 { collation := some 0 } ⟨[], []⟩ = .error .errCollation :=
  claim_C9 4 { collation := some 0 } ⟨[], []⟩ 0 rfl (by decide)

/-!
Part 4: OP_MSG write commands (spec section 4.2; test
core/integration/opmsg_test.go).  The wire-message encoder
(core/wiremessage and the command.Insert/Update/Delete round-trip code)
is not part of the source slice, only its test is, so the message shape
is modelled from the spec: a Body section holding the command document
and a DocumentSequence section whose identifier names the array field
and whose payload is the concatenation of the documents' BSON bytes.
-/

/-- A BSON document as a list of key/value elements (the input of
encodeDoc). -/
abbrev BsonDoc := List (List Byte × BsonValue)

/-- Modelled from the spec: the two OP_MSG section kinds, Body (a single
document) and DocumentSequence (identifier plus documents). -/
inductive MsgSection where
  | body (doc : BsonDoc)
  | documentSequence (identifier : String) (documents : List BsonDoc)

/-- Modelled from the spec: an OP_MSG body, flag bits and sections. -/
structure Msg where
  flagBits : Nat
  sections : List MsgSection

/-- Modelled from the spec: the OP_MSG built for an insert, update or
delete command carrying user documents: exactly one Body section with
the command document and one DocumentSequence section named by the
field that would hold the array in a single-Body encoding. -/
def encodeWriteCommand (cmdDoc : BsonDoc) (identifier : String) (docs : List BsonDoc) : Msg :=
  { flagBits := 0, sections := [.body cmdDoc, .documentSequence identifier docs] }

/-- Split a DocumentSequence payload back into its documents by reading
each document's int32 length prefix; fuel bounds the number of
documents. -/
def splitBsonDocs : Nat → List Byte → Option (List (List Byte))
  | 0, bs => if bs = [] then some [] else none
  | fuel + 1, bs =>
      if bs = [] then some []
      else
        let n := readLE32 (bs.take 4)
        if n = 0 then none
        else if bs.length < n then none
        else
          match splitBsonDocs fuel (bs.drop n) with
          | some ds => some (bs.take n :: ds)
          | none => none

theorem encodeDoc_ne_nil (d : BsonDoc) : encodeDoc d ≠ [] := by
  intro h
  have := encodeDoc_length d
  rw [h] at this
  simp at this

/-- Concatenated document encodings split back into exactly the encoded
documents, in order, whenever each document is within the int32 range. -/
theorem splitBsonDocs_encode (docs : List BsonDoc) (fuel : Nat)
    (hfuel : docs.length ≤ fuel)
    (hsmall : ∀ d ∈ docs, (encodeDoc d).length < 2 ^ 32) :
    splitBsonDocs fuel ((docs.map encodeDoc).flatten) = some (docs.map encodeDoc) := by
  induction docs generalizing fuel with
  | nil => cases fuel <;> simp [splitBsonDocs]
  | cons d ds ih =>
      cases fuel with
      | zero => simp at hfuel
      | succ fuel =>
          have hsmalld : (encodeDoc d).length < 2 ^ 32 := hsmall d (by simp)
          have hne : encodeDoc d ++ (ds.map encodeDoc).flatten ≠ [] := by
            intro h
            exact encodeDoc_ne_nil d (List.append_eq_nil.mp h).1
          have htake4 : (encodeDoc d ++ (ds.map encodeDoc).flatten).take 4 =
              (encodeDoc d).take 4 := by
            rw [List.take_append_of_le_length]
            rw [encodeDoc_length]
            omega
          have hread : readLE32 ((encodeDoc d ++ (ds.map encodeDoc).flatten).take 4) =
              (encodeDoc d).length := by
            rw [htake4, encodeDoc_take_four, readLE32_le32, Nat.mod_eq_of_lt hsmalld]
          have hlenpos : (encodeDoc d).length ≠ 0 := by
            rw [encodeDoc_length]; omega
          have hlenle : (encodeDoc d).length ≤
              (encodeDoc d ++ (ds.map encodeDoc).flatten).length := by
            rw [List.length_append]; omega
          have hdrop : (encodeDoc d ++ (ds.map encodeDoc).flatten).drop
              ((encodeDoc d).length) = (ds.map encodeDoc).flatten := by
            rw [List.drop_left]
          have htaken : (encodeDoc d ++ (ds.map encodeDoc).flatten).take
              ((encodeDoc d).length) = encodeDoc d := by
            rw [List.take_append_of_le_length (le_refl _), List.take_length]
          simp only [List.map_cons, List.flatten_cons, splitBsonDocs]
          rw [if_neg hne]
          simp only [hread]
          rw [if_neg hlenpos, if_neg (by omega), hdrop,
            ih fuel (by simp at hfuel; omega)
              (fun x hx => hsmall x (by simp [hx])), htaken]

/-- C4: a write command carrying n user documents (n at least 1) encodes
to an OP_MSG of exactly two sections, a Body with the command document
and a DocumentSequence holding exactly the n supplied documents in
order; at the byte level the concatenated sequence payload parses back
into exactly those documents. -/
theorem claim_C4 (cmdDoc : BsonDoc) (identifier : String) (docs : List BsonDoc)
    (hn : 1 ≤ docs.length)
    (hsmall : ∀ d ∈ docs, (encodeDoc d).length < 2 ^ 32) :
    (encodeWriteCommand cmdDoc identifier docs).sections.length = 2 ∧
    (encodeWriteCommand cmdDoc identifier docs).sections =
      [.body cmdDoc, .documentSequence identifier docs] ∧
    splitBsonDocs docs.length ((docs.map encodeDoc).flatten) = some (docs.map encodeDoc) :=
  ⟨rfl, rfl, splitBsonDocs_encode docs docs.length (le_refl _) hsmall⟩

/-- Witness for claim C4: a single empty user document under an empty
command document and the identifier "documents". -/
theorem claim_C4_witness :
    (encodeWriteCommand [] "documents" [[]]).sections.length = 2 ∧
    (encodeWriteCommand [] "documents" [[]]).sections =
      [.body [], .documentSequence "documents" [[]]] ∧
    splitBsonDocs [([] : BsonDoc)].length (([([] : BsonDoc)].map encodeDoc).flatten) =
      some ([([] : BsonDoc)].map encodeDoc) :=
  claim_C4 [] "documents" [[]] (by decide) (by decide)

/-!
Part 5: unacknowledged writes (mongo.Collection.InsertOne and
Collection.DeleteOne in the source slice).  Both follow the same shape:
prepare, select a writable server, and then, when the write concern is
not acknowledged, fire the remote call in a goroutine whose outcome is
discarded and return (nil, nil) at once.  The remote call's outcome is a
parameter of the embedding, so "never observes remote failures" becomes
independence of the result from that parameter.
-/

/-- An operation error (local or remote), carried opaquely. -/
structure MErr where
  code : Nat
deriving Repr, DecidableEq

/-- The result of an acknowledged InsertOne: the inserted id. -/
structure InsertOneResult where
  insertedID : Nat
deriving Repr, DecidableEq

/-- The result of an acknowledged DeleteOne. -/
structure DeleteResult where
  deletedCount : Int
deriving Repr, DecidableEq

/-- Collection.InsertOne: getOrInsertID, then getWriteableServer, then
either return success immediately (unacknowledged, remote outcome
discarded) or run the insert and surface its outcome. -/
def InsertOne (docPrep : Except MErr Nat) (selectServer : Except MErr Nat)
    (acknowledged : Bool) (remoteInsert : Except MErr Unit) :
    Except MErr (Option InsertOneResult) :=
  match docPrep with
  | .error e => .error e
  | .ok insertedID =>
      match selectServer with
      | .error e => .error e
      | .ok _ =>
          if !acknowledged then .ok none
          else
            match remoteInsert with
            | .error e => .error e
            | .ok _ => .ok (some { insertedID := insertedID })

/-- Collection.DeleteOne: getWriteableServer, then either return success
immediately (unacknowledged, remote outcome discarded) or run the
delete and surface its outcome. -/
def DeleteOne (selectServer : Except MErr Nat) (acknowledged : Bool)
    (remoteDelete : Except MErr DeleteResult) : Except MErr (Option DeleteResult) :=
  match selectServer with
  | .error e => .error e
  | .ok _ =>
      if !acknowledged then .ok none
      else
        match remoteDelete with
        | .error e => .error e
        | .ok r => .ok (some r)

/-- C5: a write issued with an unacknowledged (w:0) write concern
returns success without reading a reply: once local preparation and
server selection succeed, the call returns ok for every possible remote
outcome, so no remote failure is ever observed. -/
theorem claim_C5 (docPrep : Except MErr Nat) (selectServer : Except MErr Nat)
    (hdp : ∃ i, docPrep = .ok i) (hss : ∃ s, selectServer = .ok s) :
    (∀ remoteInsert, InsertOne docPrep selectServer false remoteInsert = .ok none) ∧
    (∀ remoteDelete, DeleteOne selectServer false remoteDelete = .ok none) := by
  obtain ⟨i, hdp⟩ := hdp
  obtain ⟨s, hss⟩ := hss
  subst hdp hss
  exact ⟨fun _ => rfl, fun _ => rfl⟩

/-- Witness for claim C5: successful preparation and selection; the
remote call failing with error code 7 is still reported as success. -/
theorem claim_C5_witness :
    InsertOne (.ok 0) (.ok 0) false (.error ⟨7⟩) = .ok none ∧
    DeleteOne (.ok 0) false (.error ⟨7⟩) = .ok none :=
  ⟨(claim_C5 (.ok 0) (.ok 0) ⟨0, rfl⟩ ⟨0, rfl⟩).1 (.error ⟨7⟩),
   (claim_C5 (.ok 0) (.ok 0) ⟨0, rfl⟩ ⟨0, rfl⟩).2 (.error ⟨7⟩)⟩

/-!
Part 6: tailable-await cursor iteration (spec section 4.7; test
core/integration/cursor_test.go TestTailableCursorLoopsUntilDocsAvailable).
The cursor implementation is not part of the source slice, only its
test, so the Next loop is modelled from the spec: when the current batch
is drained and the cursor id is nonzero, Next reissues getMore,
retrying until a document arrives or the caller's context is cancelled;
an id of zero with an empty batch is end of iteration.  The sequence of
getMore replies the server would produce is the loop's input, and
running out of replies models the context being cancelled first.
-/

/-- One getMore reply: the cursor id it carries and its (possibly empty)
batch of documents, documents kept opaque. -/
structure GetMoreReply where
  id : Int
  batch : List Nat
deriving Repr, DecidableEq

/-- What a Next call on a drained tailable-await cursor can observe. -/
inductive NextOutcome where
  | doc (d : Nat)
  | exhausted
  | cancelled
deriving Repr, DecidableEq

/-- Modelled from the spec: Next on a drained tailable-await cursor.
Each getMore reply with a nonempty batch yields its first document; an
empty batch with id zero ends iteration; an empty batch with nonzero id
loops into the next getMore.  Missing source: the command.Cursor
implementation behind core/command. -/
def nextLoop : List GetMoreReply → NextOutcome
  | [] => .cancelled
  | r :: rest =>
      match r.batch with
      | d :: _ => .doc d
      | [] => if r.id = 0 then .exhausted else nextLoop rest

/-- C6: while the server keeps answering with empty batches and a
nonzero cursor id, Next never reports end of iteration: it keeps
reissuing getMore until the context is cancelled, and the moment a
document becomes available the very next outcome is exactly that
document. -/
theorem claim_C6 :
    (∀ (pre rest : List GetMoreReply) (r : GetMoreReply) (d : Nat) (ds : List Nat),
      (∀ x ∈ pre, x.batch = [] ∧ x.id ≠ 0) → r.batch = d :: ds →
      nextLoop (pre ++ r :: rest) = .doc d) ∧
    (∀ replies : List GetMoreReply,
      (∀ x ∈ replies, x.batch = [] ∧ x.id ≠ 0) → nextLoop replies = .cancelled) := by
  constructor
  · intro pre rest r d ds hpre hr
    induction pre with
    | nil => simp [nextLoop, hr]
    | cons x pre ih =>
        have hx := hpre x (by simp)
        simp only [List.cons_append, nextLoop, hx.1]
        rw [if_neg hx.2]
        exact ih fun y hy => hpre y (by simp [hy])
  · intro replies hall
    induction replies with
    | nil => rfl
    | cons x rest ih =>
        have hx := hall x (by simp)
        simp only [nextLoop, hx.1]
        rw [if_neg hx.2]
        exact ih fun y hy => hall y (by simp [hy])

/-- Witness for claim C6: one empty awaiting reply with id 1, then a
reply delivering document 42: Next returns document 42; and a run of
three empty id-1 replies ends only by cancellation. -/
theorem claim_C6_witness :
    nextLoop [⟨1, []⟩, ⟨1, [42]⟩] = .doc 42 ∧
    nextLoop [⟨1, []⟩, ⟨1, []⟩, ⟨1, []⟩] = .cancelled :=
  ⟨claim_C6.1 [⟨1, []⟩] [] ⟨1, [42]⟩ 42 [] (by decide) rfl,
   claim_C6.2 [⟨1, []⟩, ⟨1, []⟩, ⟨1, []⟩] (by decide)⟩


/-!
Part 7: the default struct-tag parser
(bson-codec-design/bson DefaultStructTagParser).  A Go struct field is
its name, its full raw tag string, and the result of Go's
reflect.StructTag.Lookup("bson") on that raw tag.  Lookup is Go library
code, so it enters the embedding as the bsonTag component; the one fact
the parser relies on is that a raw tag equal to "-" never parses as a
bson key/value pair, carried as a hypothesis where needed.  Strings are
processed through their character lists so that every operation is
structurally recursive: splitComma models strings.Split(tag, ","),
lowerString models strings.ToLower, and membership of the colon
character models strings.Contains(tag, ":").  The Go loop over the
comma-separated segments both picks the key (segment zero when
nonempty) and sets the four flags (any segment); the two effects touch
disjoint fields, embedded as tagKey plus a fold of applyFlag.
-/

/-- A Go struct field as the parser sees it: name, raw tag and the
result of sf.Tag.Lookup("bson"). -/
structure GoStructField where
  name : String
  rawTag : String
  bsonTag : Option String
deriving Repr, DecidableEq

/-- StructTags: the record the parser produces for a field. -/
structure StructTags where
  Name : String
  OmitEmpty : Bool
  MinSize : Bool
  Truncate : Bool
  Inline : Bool
  Skip : Bool
deriving Repr, DecidableEq

/-- strings.ToLower over the character list. -/
def lowerString (s : String) : String := ⟨s.data.map Char.toLower⟩

/-- Split a character list at commas (strings.Split with separator ","). -/
def splitCommaAux : List Char → List Char → List String
  | [], acc => [⟨acc.reverse⟩]
  | c :: cs, acc =>
      if c = ',' then ⟨acc.reverse⟩ :: splitCommaAux cs []
      else splitCommaAux cs (c :: acc)

/-- strings.Split(s, ","): the comma-separated segments of s; the empty
string yields the single segment "". -/
def splitComma (s : String) : List String := splitCommaAux s.data []

/-- One iteration of the flag switch in the parser's loop. -/
def applyFlag (st : StructTags) (s : String) : StructTags :=
  if s = "omitempty" then { st with OmitEmpty := true }
  else if s = "minsize" then { st with MinSize := true }
  else if s = "truncate" then { st with Truncate := true }
  else if s = "inline" then { st with Inline := true }
  else st

/-- The key selected by the loop: segment zero when nonempty, else the
default (the lower-cased field name). -/
def tagKey (parts : List String) (dflt : String) : String :=
  match parts with
  | p :: _ => if p ≠ "" then p else dflt
  | [] => dflt

/-- DefaultStructTagParser.  With a bson tag: skip when the tag (or the
whole raw tag) is "-", then walk the comma-separated segments setting
the key and the flags.  Without one: when the raw tag has no colon and
is nonempty it is taken verbatim as the key, otherwise the lower-cased
field name stands. -/
def DefaultStructTagParser (sf : GoStructField) : StructTags :=
  let key := lowerString sf.name
  match sf.bsonTag with
  | some tag =>
      let st0 : StructTags :=
        { Name := "", OmitEmpty := false, MinSize := false, Truncate := false,
          Inline := false, Skip := tag == "-" || sf.rawTag == "-" }
      let parts := splitComma tag
      let st := parts.foldl applyFlag st0
      { st with Name := tagKey parts key }
  | none =>
      if sf.rawTag.data.contains ':' = false ∧ 0 < sf.rawTag.length then
        { Name := sf.rawTag, OmitEmpty := false, MinSize := false, Truncate := false,
          Inline := false, Skip := false }
      else
        { Name := key, OmitEmpty := false, MinSize := false, Truncate := false,
          Inline := false, Skip := false }

theorem applyFlag_Skip (st : StructTags) (s : String) : (applyFlag st s).Skip = st.Skip := by
  unfold applyFlag
  split_ifs <;> rfl

theorem applyFlag_OmitEmpty (st : StructTags) (s : String) :
    (applyFlag st s).OmitEmpty = (st.OmitEmpty || s == "omitempty") := by
  unfold applyFlag
  split_ifs with h1 h2 h3 h4 <;> simp_all

theorem applyFlag_MinSize (st : StructTags) (s : String) :
    (applyFlag st s).MinSize = (st.MinSize || s == "minsize") := by
  unfold applyFlag
  split_ifs with h1 h2 h3 h4 <;> simp_all

theorem applyFlag_Truncate (st : StructTags) (s : String) :
    (applyFlag st s).Truncate = (st.Truncate || s == "truncate") := by
  unfold applyFlag
  split_ifs with h1 h2 h3 h4 <;> simp_all

theorem applyFlag_Inline (st : StructTags) (s : String) :
    (applyFlag st s).Inline = (st.Inline || s == "inline") := by
  unfold applyFlag
  split_ifs with h1 h2 h3 h4 <;> simp_all

theorem foldl_applyFlag_Skip (parts : List String) (st : StructTags) :
    (parts.foldl applyFlag st).Skip = st.Skip := by
  induction parts generalizing st with
  | nil => rfl
  | cons p ps ih => rw [List.foldl_cons, ih, applyFlag_Skip]

theorem foldl_applyFlag_OmitEmpty (parts : List String) (st : StructTags) :
    (parts.foldl applyFlag st).OmitEmpty = (st.OmitEmpty || parts.any (· == "omitempty")) := by
  induction parts generalizing st with
  | nil => simp
  | cons p ps ih => rw [List.foldl_cons, ih, applyFlag_OmitEmpty]; simp [Bool.or_assoc]

theorem foldl_applyFlag_MinSize (parts : List String) (st : StructTags) :
    (parts.foldl applyFlag st).MinSize = (st.MinSize || parts.any (· == "minsize")) := by
  induction parts generalizing st with
  | nil => simp
  | cons p ps ih => rw [List.foldl_cons, ih, applyFlag_MinSize]; simp [Bool.or_assoc]

theorem foldl_applyFlag_Truncate (parts : List String) (st : StructTags) :
    (parts.foldl applyFlag st).Truncate = (st.Truncate || parts.any (· == "truncate")) := by
  induction parts generalizing st with
  | nil => simp
  | cons p ps ih => rw [List.foldl_cons, ih, applyFlag_Truncate]; simp [Bool.or_assoc]

theorem foldl_applyFlag_Inline (parts : List String) (st : StructTags) :
    (parts.foldl applyFlag st).Inline = (st.Inline || parts.any (· == "inline")) := by
  induction parts generalizing st with
  | nil => simp
  | cons p ps ih => rw [List.foldl_cons, ih, applyFlag_Inline]; simp [Bool.or_assoc]

theorem tagKey_cons (p : String) (ps : List String) (dflt : String) :
    tagKey (p :: ps) dflt = if p ≠ "" then p else dflt := rfl

/-- Counterexample input for C7: Go field A with the raw tag `foo` (not
a key:"value" tag, so Lookup("bson") yields nothing). -/
def rawTagField : GoStructField := { name := "A", rawTag := "foo", bsonTag := none }

/-- C7 counterexample: for field A with raw tag `foo` the bson tag
supplies no key, yet the parser names the field "foo", not the
lower-cased field name "a" (matching the "alternate name" case of the
encoder test). -/
theorem claim_C7_counterexample :
    rawTagField.bsonTag = none ∧
    (DefaultStructTagParser rawTagField).Name = "foo" ∧
    (DefaultStructTagParser rawTagField).Name ≠ lowerString rawTagField.name := by
  refine ⟨rfl, by decide, by decide⟩

/-- C7 as amended: with a bson tag, Skip holds exactly when the tag is
"-", the name is segment zero of the comma-split tag when nonempty and
the lower-cased field name otherwise, and each of the four flags holds
exactly when its word appears among the segments; without a bson tag no
flag is set and the name is the lower-cased field name, except that a
nonempty raw tag containing no colon is taken verbatim as the name. -/
theorem claim_C7 (sf : GoStructField) (hwf : sf.rawTag = "-" → sf.bsonTag = none) :
    (∀ tag, sf.bsonTag = some tag →
      ((DefaultStructTagParser sf).Skip = true ↔ tag = "-") ∧
      (∀ p ps, splitComma tag = p :: ps →
        (p ≠ "" → (DefaultStructTagParser sf).Name = p) ∧
        (p = "" → (DefaultStructTagParser sf).Name = lowerString sf.name)) ∧
      ((DefaultStructTagParser sf).OmitEmpty = true ↔ "omitempty" ∈ splitComma tag) ∧
      ((DefaultStructTagParser sf).MinSize = true ↔ "minsize" ∈ splitComma tag) ∧
      ((DefaultStructTagParser sf).Truncate = true ↔ "truncate" ∈ splitComma tag) ∧
      ((DefaultStructTagParser sf).Inline = true ↔ "inline" ∈ splitComma tag)) ∧
    (sf.bsonTag = none →
      (DefaultStructTagParser sf).Skip = false ∧
      (DefaultStructTagParser sf).OmitEmpty = false ∧
      (DefaultStructTagParser sf).MinSize = false ∧
      (DefaultStructTagParser sf).Truncate = false ∧
      (DefaultStructTagParser sf).Inline = false ∧
      (¬(sf.rawTag.data.contains ':' = false ∧ 0 < sf.rawTag.length) →
        (DefaultStructTagParser sf).Name = lowerString sf.name) ∧
      ((sf.rawTag.data.contains ':' = false ∧ 0 < sf.rawTag.length) →
        (DefaultStructTagParser sf).Name = sf.rawTag)) := by
  constructor
  · intro tag htag
    have hraw : (sf.rawTag == "-") = false := by
      rw [beq_eq_false_iff_ne]
      intro h
      rw [hwf h] at htag
      exact Option.noConfusion htag
    simp only [DefaultStructTagParser, htag]
    refine ⟨?_, ?_, ?_, ?_, ?_, ?_⟩
    · simp only [foldl_applyFlag_Skip, hraw, Bool.or_false]
      simp
    · intro p ps hp
      rw [hp, tagKey_cons]
      constructor
      · intro hpne
        simp only [if_pos hpne]
      · intro hpe
        rw [if_neg (by simp [hpe])]
    · simp only [foldl_applyFlag_OmitEmpty, Bool.false_or]
      simp [List.any_eq_true]
    · simp only [foldl_applyFlag_MinSize, Bool.false_or]
      simp [List.any_eq_true]
    · simp only [foldl_applyFlag_Truncate, Bool.false_or]
      simp [List.any_eq_true]
    · simp only [foldl_applyFlag_Inline, Bool.false_or]
      simp [List.any_eq_true]
  · intro hnone
    simp only [DefaultStructTagParser, hnone]
    by_cases hc : sf.rawTag.data.contains ':' = false ∧ 0 < sf.rawTag.length
    · rw [if_pos hc]
      exact ⟨rfl, rfl, rfl, rfl, rfl, fun h => absurd hc h, fun _ => rfl⟩
    · rw [if_neg hc]
      exact ⟨rfl, rfl, rfl, rfl, rfl, fun _ => rfl, fun h => absurd h hc⟩

/-- Witness for the amended C7: field A tagged bson:"foo,omitempty" gets
omitempty from the segment list and is not skipped. -/
theorem claim_C7_witness :
    ((DefaultStructTagParser ⟨"A", "bson:\"foo,omitempty\"", some "foo,omitempty"⟩).OmitEmpty
      = true ↔ "omitempty" ∈ splitComma "foo,omitempty") ∧
    ((DefaultStructTagParser ⟨"A", "bson:\"foo,omitempty\"", some "foo,omitempty"⟩).Skip
      = true ↔ "foo,omitempty" = "-") :=
  have h := claim_C7 ⟨"A", "bson:\"foo,omitempty\"", some "foo,omitempty"⟩ (by decide)
  ⟨(h.1 "foo,omitempty" rfl).2.2.1, (h.1 "foo,omitempty" rfl).1⟩

/-!
Part 8: option bundles (mongo/insertopt/insertopt.go, OneBundle).  A
bundle is a linked list whose head is the most recently added option;
each node holds either a plain option or a nested bundle, and the all-nil
sentinel ends traversal.  unbundle fills an array of size bundleLength
from the back while walking head-first, so the most recently added
option lands last and a nested bundle's own unbundling occupies a
contiguous block in place; that array discipline is embedded as
"earlier additions first, nested expansions in place".  Unbundle(true)
then walks the flattened slice backwards removing any option whose
dynamic type (reflect.TypeOf) was already seen, keeping the last
occurrence of each type.
-/

/-- option.InsertOptioner: the converted insert options. -/
inductive InsertOptioner where
  | optBypassDocumentValidation (b : Bool)
  | optOrdered (b : Bool)
  | optWriteConcern (wc : Nat)
deriving Repr, DecidableEq

/-- The dynamic type of an option (what reflect.TypeOf distinguishes). -/
def optType : InsertOptioner → Nat
  | .optBypassDocumentValidation _ => 0
  | .optOrdered _ => 1
  | .optWriteConcern _ => 2

mutual

/-- A OneBundle: the linked node chain; done stands for both the nil
pointer and the option-less sentinel where traversal stops. -/
inductive OneBundle where
  | done
  | node (option : OneOpt) (next : OneBundle)

/-- What a bundle node holds: a plain (already converted) option, or a
nested bundle. -/
inductive OneOpt where
  | leaf (o : InsertOptioner)
  | nested (b : OneBundle)

end

/-- BundleOne: starting from the sentinel, prepend each argument in
order, so the last argument becomes the head. -/
def BundleOne (opts : List OneOpt) : OneBundle :=
  opts.foldl (fun head opt => OneBundle.node opt head) .done

mutual

/-- bundleLength: the number of plain options, nested bundles counted
recursively. -/
def OneBundle.bundleLength : OneBundle → Nat
  | .done => 0
  | .node opt next => opt.optLength + next.bundleLength

/-- The number of plain options one node contributes. -/
def OneOpt.optLength : OneOpt → Nat
  | .leaf _ => 1
  | .nested b => b.bundleLength

end

mutual

/-- unbundle: walking head-first while writing from the array's back
means everything added before this node comes first, then this node's
expansion. -/
def OneBundle.unbundle : OneBundle → List InsertOptioner
  | .done => []
  | .node opt next => next.unbundle ++ opt.expand

/-- A node's contribution: the converted option itself, or the nested
bundle unbundled in place. -/
def OneOpt.expand : OneOpt → List InsertOptioner
  | .leaf o => [o]
  | .nested b => b.unbundle

end

/-- The backwards deduplication pass of Unbundle: an option is removed
exactly when a later option of the same dynamic type exists. -/
def dedup : List InsertOptioner → List InsertOptioner
  | [] => []
  | x :: xs =>
      if xs.any (fun y => optType y == optType x) then dedup xs else x :: dedup xs

/-- OneBundle.Unbundle: flatten, then deduplicate when asked. -/
def OneBundle.Unbundle (ob : OneBundle) (deduplicate : Bool) : List InsertOptioner :=
  if deduplicate then dedup ob.unbundle else ob.unbundle

theorem foldl_node_unbundle (opts : List OneOpt) (acc : OneBundle) :
    (opts.foldl (fun head opt => OneBundle.node opt head) acc).unbundle =
      acc.unbundle ++ (opts.map OneOpt.expand).flatten := by
  induction opts generalizing acc with
  | nil => simp
  | cons o os ih =>
      rw [List.foldl_cons, ih]
      simp [OneBundle.unbundle, List.append_assoc]

theorem dedup_sublist (l : List InsertOptioner) : (dedup l).Sublist l := by
  induction l with
  | nil => exact List.Sublist.refl []
  | cons x xs ih =>
      unfold dedup
      split
      · exact ih.cons x
      · exact ih.cons₂ x

theorem mem_of_mem_dedup {l : List InsertOptioner} {x : InsertOptioner}
    (h : x ∈ dedup l) : x ∈ l :=
  (dedup_sublist l).subset h

theorem filter_optType_eq_nil {xs : List InsertOptioner} {t : Nat}
    (h : xs.any (fun y => optType y == t) = false) :
    xs.filter (fun y => optType y == t) = [] := by
  rw [List.filter_eq_nil_iff]
  intro a ha
  have := List.any_eq_false.mp h a ha
  simpa using this

theorem filter_optType_ne_nil {xs : List InsertOptioner} {t : Nat}
    (h : xs.any (fun y => optType y == t) = true) :
    xs.filter (fun y => optType y == t) ≠ [] := by
  obtain ⟨a, ha, hp⟩ := List.any_eq_true.mp h
  intro hnil
  have : a ∈ xs.filter (fun y => optType y == t) := List.mem_filter.mpr ⟨ha, hp⟩
  rw [hnil] at this
  cases this

theorem getLast?_cons_of_ne_nil {α : Type} (a : α) {l : List α} (h : l ≠ []) :
    (a :: l).getLast? = l.getLast? := by
  cases l with
  | nil => exact absurd rfl h
  | cons b t => exact List.getLast?_cons_cons

/-- The key dedup property: for each option type, what survives is
exactly the last occurrence of that type in the input. -/
theorem dedup_filter (l : List InsertOptioner) (t : Nat) :
    (dedup l).filter (fun x => optType x == t) =
      ((l.filter (fun x => optType x == t)).getLast?).toList := by
  induction l with
  | nil => rfl
  | cons x xs ih =>
      unfold dedup
      by_cases htx : optType x = t
      · subst htx
        cases hany : xs.any (fun y => optType y == optType x) with
        | true =>
            rw [if_pos rfl, ih]
            have hne : xs.filter (fun y => optType y == optType x) ≠ [] :=
              filter_optType_ne_nil hany
            rw [List.filter_cons, if_pos (by simp), getLast?_cons_of_ne_nil x hne]
        | false =>
            rw [if_neg (by simp)]
            have hnil : xs.filter (fun y => optType y == optType x) = [] :=
              filter_optType_eq_nil hany
            have hnild : (dedup xs).filter (fun y => optType y == optType x) = [] := by
              have hsub := (dedup_sublist xs).filter (fun y => optType y == optType x)
              rw [hnil] at hsub
              exact List.sublist_nil.mp hsub
            rw [List.filter_cons, List.filter_cons, if_pos (by simp), if_pos (by simp),
              hnil, hnild]
            rfl
      · cases hany : xs.any (fun y => optType y == optType x) with
        | true =>
            rw [if_pos rfl, ih, List.filter_cons, if_neg (by simp [htx])]
        | false =>
            rw [if_neg (by simp), List.filter_cons, List.filter_cons,
              if_neg (by simp [htx]), if_neg (by simp [htx])]
            exact ih

/-- After deduplication each option type occurs at most once. -/
theorem dedup_types_nodup (l : List InsertOptioner) : ((dedup l).map optType).Nodup := by
  induction l with
  | nil => exact List.nodup_nil
  | cons x xs ih =>
      unfold dedup
      split
      · exact ih
      · rename_i hany
        rw [List.map_cons, List.nodup_cons]
        refine ⟨?_, ih⟩
        intro hmem
        obtain ⟨y, hy, hyt⟩ := List.mem_map.mp hmem
        have hyxs := mem_of_mem_dedup hy
        have := List.any_eq_false.mp (Bool.of_not_eq_true hany) y hyxs
        simp [hyt] at this

/-- Shorthand for the BypassDocumentValidation option node used by the
insertopt tests. -/
def BDV (b : Bool) : OneOpt := .leaf (.optBypassDocumentValidation b)

/-- The test's nestedBundle1: BundleOne(BDV(true), BDV(true),
BundleOne(BDV(false))). -/
def nestedBundle1 : OneBundle :=
  BundleOne [BDV true, BDV true, .nested (BundleOne [BDV false])]

/-- The test's nestedBundle3: two top-level nested bundles,
BundleOne(b4, BDV(true), b2) with b4 = BundleOne(BDV(false),
BundleOne(BDV(true))) and b2 = BundleOne(BDV(false),
BundleOne(BDV(false))). -/
def nestedBundle3 : OneBundle :=
  BundleOne [.nested (BundleOne [BDV false, .nested (BundleOne [BDV true])]),
    BDV true,
    .nested (BundleOne [BDV false, .nested (BundleOne [BDV false])])]

/-- C8: Unbundle(false) flattens a bundle into the options in the order
they were added with nested bundles expanded in place; Unbundle(true)
deduplicates that list keeping, for each option type, exactly the
last-added occurrence (a subsequence with one survivor per type, the
last of its type); the nested fixtures of the insertopt test evaluate to
the test's expected flattened and deduplicated lists. -/
theorem claim_C8 :
    (∀ opts : List OneOpt,
      (BundleOne opts).Unbundle false = (opts.map OneOpt.expand).flatten) ∧
    (∀ ob : OneBundle, ob.Unbundle true = dedup (ob.Unbundle false)) ∧
    (∀ l : List InsertOptioner, (dedup l).Sublist l) ∧
    (∀ (l : List InsertOptioner) (t : Nat),
      (dedup l).filter (fun x => optType x == t) =
        ((l.filter (fun x => optType x == t)).getLast?).toList) ∧
    (∀ l : List InsertOptioner, ((dedup l).map optType).Nodup) ∧
    nestedBundle1.Unbundle false =
      [.optBypassDocumentValidation true, .optBypassDocumentValidation true,
       .optBypassDocumentValidation false] ∧
    nestedBundle1.Unbundle true = [.optBypassDocumentValidation false] ∧
    nestedBundle3.Unbundle false =
      [.optBypassDocumentValidation false, .optBypassDocumentValidation true,
       .optBypassDocumentValidation true, .optBypassDocumentValidation false,
       .optBypassDocumentValidation false] ∧
    nestedBundle3.Unbundle true = [.optBypassDocumentValidation false] := by
  refine ⟨?_, ?_, dedup_sublist, dedup_filter, dedup_types_nodup,
    by decide, by decide, by decide, by decide⟩
  · intro opts
    unfold OneBundle.Unbundle BundleOne
    rw [if_neg (by simp), foldl_node_unbundle]
    simp [OneBundle.unbundle]
  · intro ob
    simp [OneBundle.Unbundle]

/-!
Part 9: DocumentResult.Decode (mongo/document_result.go).  The embedding
carries what Decode observes: the error stored by the originating
operation, whether cur.Next(ctx) succeeds, the cursor's Err(), whether
the destination is nil, and the outcome of cur.Decode(v); a returned
none is Go's nil error.
-/

/-- ErrNoDocuments ("mongo: no documents in result"). -/
def ErrNoDocuments : MErr := ⟨1⟩

/-- A DocumentResult together with the cursor behaviour Decode will
observe. -/
structure DocumentResult where
  err : Option MErr
  curNext : Bool
  curErr : Option MErr
  curDecode : Option MErr
deriving Repr, DecidableEq

/-- DocumentResult.Decode: the stored operation error first; otherwise,
when the cursor has no next document, the cursor's own error when
non-nil and ErrNoDocuments when merely empty; otherwise a nil
destination returns nil without decoding; otherwise cur.Decode's
outcome. -/
def DocumentResult.Decode (dr : DocumentResult) (vIsNil : Bool) : Option MErr :=
  match dr.err with
  | some e => some e
  | none =>
      if !dr.curNext then
        match dr.curErr with
        | some e => some e
        | none => some ErrNoDocuments
      else if vIsNil then none
      else dr.curDecode

/-- C10: the error precedence of DocumentResult.Decode: the operation's
stored error wins; then, with no next document, the cursor's error when
non-nil and ErrNoDocuments otherwise; then a nil destination yields nil
without decoding (the result does not depend on cur.Decode's outcome,
which stays arbitrary in dr). -/
theorem claim_C10 (dr : DocumentResult) (vIsNil : Bool) :
    (∀ e, dr.err = some e → dr.Decode vIsNil = some e) ∧
    (dr.err = none → dr.curNext = false →
      ∀ e, dr.curErr = some e → dr.Decode vIsNil = some e) ∧
    (dr.err = none → dr.curNext = false → dr.curErr = none →
      dr.Decode vIsNil = some ErrNoDocuments) ∧
    (dr.err = none → dr.curNext = true → dr.Decode true = none) ∧
    (dr.err = none → dr.curNext = true → vIsNil = false →
      dr.Decode vIsNil = dr.curDecode) := by
  refine ⟨?_, ?_, ?_, ?_, ?_⟩
  · intro e he
    simp [DocumentResult.Decode, he]
  · intro he hnext e hce
    simp [DocumentResult.Decode, he, hnext, hce]
  · intro he hnext hce
    simp [DocumentResult.Decode, he, hnext, hce]
  · intro he hnext
    simp [DocumentResult.Decode, he, hnext]
  · intro he hnext hv
    subst hv
    simp [DocumentResult.Decode, he, hnext]

/-- Witness for claim C10: a result with no stored error over an empty,
error-free cursor yields ErrNoDocuments; with a stored error code 5,
that error is returned even though cur.Decode would fail with code 9. -/
theorem claim_C10_witness :
    DocumentResult.Decode ⟨none, false, none, some ⟨9⟩⟩ false = some ErrNoDocuments ∧
    DocumentResult.Decode ⟨some ⟨5⟩, true, none, some ⟨9⟩⟩ false = some ⟨5⟩ :=
  ⟨(claim_C10 ⟨none, false, none, some ⟨9⟩⟩ false).2.2.1 rfl rfl rfl,
   (claim_C10 ⟨some ⟨5⟩, true, none, some ⟨9⟩⟩ false).1 ⟨5⟩ rfl⟩
